import Mathlib

/-!
Verification development for the alx-polly polling application.

The definitions below are a shallow embedding of the policy layer of the
repository: the sanitizer and validators of `src/lib/security.ts`, the
fixed-window rate limiter of `lib/rate-limit.ts`, and the poll server actions
of `src/app/lib/actions/poll-actions.ts` (`createPoll`, `updatePoll`,
`deletePoll`, `submitVote`).  JavaScript strings are modelled as Lean
`String`s, the in-memory rate-limit `Map` as an association list with
first-match lookup, the Supabase store as an explicit record of rows, and the
ability of the store / auth provider to fail as explicit `Option String`
error inputs.  The `throw` statements inside the option-sanitizing `map` of
`createPoll` / `updatePoll` are modelled with `Except`: an `Except.error`
value is an exception that escaped the server action.
-/

set_option autoImplicit false

namespace Polly

/-! ## JavaScript string primitives used by `sanitizeInput` -/

/-- Whitespace recognised by JavaScript `String.prototype.trim` (ASCII part). -/
def isJsWhite (c : Char) : Bool :=
  c = ' ' || c = '\t' || c = '\n' || c = '\r' || c = '\x0b' || c = '\x0c'

/-- `String.prototype.trim` on the character list. -/
def trimChars (l : List Char) : List Char :=
  ((l.dropWhile isJsWhite).reverse.dropWhile isJsWhite).reverse

/-- `s.trim()` for a JavaScript string. -/
def jsTrim (s : String) : String :=
  String.mk (trimChars s.data)

/-- Characters kept by `.replace(/[<>]/g, '')`. -/
def notAngle (c : Char) : Bool :=
  !(c = '<' || c = '>')

/-- `.replace(/[<>]/g, '')`. -/
def removeAngle (l : List Char) : List Char :=
  l.filter notAngle

/-- Case-insensitive character match: `c` is one of the two given forms. -/
def ciEq (c : Char) (pr : Char × Char) : Bool :=
  c = pr.1 || c = pr.2

/-- The pattern `/javascript:/i`, one (lower, upper) pair per character. -/
def jsPairs : List (Char × Char) :=
  [('j', 'J'), ('a', 'A'), ('v', 'V'), ('a', 'A'), ('s', 'S'), ('c', 'C'),
   ('r', 'R'), ('i', 'I'), ('p', 'P'), ('t', 'T'), (':', ':')]

/-- Does the pattern (given as case pairs) match the head of the list? -/
def matchesPairs : List (Char × Char) → List Char → Bool
  | [], _ => true
  | _ :: _, [] => false
  | pr :: ps, c :: cs => ciEq c pr && matchesPairs ps cs

/-- Is there a match of `/javascript:/i` at the head of `l`? -/
def jsAt (l : List Char) : Bool :=
  matchesPairs jsPairs l

/-- Left-to-right global replacement of `/javascript:/gi` by the empty string,
with fuel for termination (the fuel `l.length` always suffices because every
step consumes at least one character). -/
def removeJsAux : Nat → List Char → List Char
  | 0, l => l
  | _ + 1, [] => []
  | fuel + 1, c :: cs =>
    if jsAt (c :: cs) then removeJsAux fuel (cs.drop 10) else c :: removeJsAux fuel cs

/-- `.replace(/javascript:/gi, '')`. -/
def removeJs (l : List Char) : List Char :=
  removeJsAux l.length l

/-- JavaScript `\w`: ASCII letters, digits and underscore. -/
def isWordChar (c : Char) : Bool :=
  c.isAlpha || c.isDigit || c = '_'

/-- Length of a match of `/on\w+=/i` starting at `c :: cs`, counted from `cs`
(i.e. the match consumes `c` plus `onMatchLen c cs` further characters).
The greedy `\w+` must be followed by `=`; since `=` is not a word character,
the only possible match takes the maximal word-character run. -/
def onMatchLen (c : Char) (cs : List Char) : Option Nat :=
  if c = 'o' || c = 'O' then
    match cs with
    | c2 :: rest =>
      if c2 = 'n' || c2 = 'N' then
        let m := (rest.takeWhile isWordChar).length
        if 1 ≤ m ∧ rest[m]? = some '=' then some (m + 2) else none
      else none
    | [] => none
  else none

/-- Left-to-right global replacement of `/on\w+=/gi`, fueled as above. -/
def removeOnAux : Nat → List Char → List Char
  | 0, l => l
  | _ + 1, [] => []
  | fuel + 1, c :: cs =>
    match onMatchLen c cs with
    | some k => removeOnAux fuel (cs.drop k)
    | none => c :: removeOnAux fuel cs

/-- `.replace(/on\w+=/gi, '')`. -/
def removeOn (l : List Char) : List Char :=
  removeOnAux l.length l

/-- The character-list pipeline of `sanitizeInput` (security.ts lines 13-18):
trim, strip `<`/`>`, strip `javascript:`, strip `on\w+=`, truncate to 1000. -/
def sanitizeChars (l : List Char) : List Char :=
  (removeOn (removeJs (removeAngle (trimChars l)))).take 1000

/-- `sanitizeInput` from `src/lib/security.ts` (on an input that is a string;
non-string inputs are excluded by the Lean type). -/
def sanitizeInput (s : String) : String :=
  String.mk (sanitizeChars s.data)

/-! ## Validators and the safe error mapper (`src/lib/security.ts`) -/

/-- Does `pat` match at the head of the second list? -/
def leadsWith : List Char → List Char → Bool
  | [], _ => true
  | _ :: _, [] => false
  | p :: ps, c :: cs => p = c && leadsWith ps cs

/-- Does `pat` occur as a contiguous sublist? -/
def hasSub (pat : List Char) : List Char → Bool
  | [] => pat.isEmpty
  | c :: cs => leadsWith pat (c :: cs) || hasSub pat cs

/-- JavaScript `s.includes(pat)`. -/
def containsSub (s pat : String) : Bool :=
  hasSub pat.data s.data

/-- `handleSecurityError` from `src/lib/security.ts` applied to an `Error`
whose message is `msg`: classify the message by substring and return a fixed
user-facing string.  (The `console.error` logging side effect is dropped.) -/
def handleSecurityError (msg : String) : String :=
  if containsSub msg "duplicate" || containsSub msg "already exists" then
    "This item already exists. Please try again."
  else if containsSub msg "not found" then
    "The requested item was not found."
  else if containsSub msg "permission" || containsSub msg "unauthorized" then
    "You do not have permission to perform this action."
  else
    "An error occurred. Please try again later."

/-- A character allowed by the poll-id regex `^[a-zA-Z0-9_-]+$`. -/
def isIdChar (c : Char) : Bool :=
  c.isAlpha || c.isDigit || c = '_' || c = '-'

/-- `isValidPollId` from `src/lib/security.ts`: nonempty, at most 50
characters, only `[a-zA-Z0-9_-]`. -/
def isValidPollId (s : String) : Bool :=
  !(s = "") && s.length ≤ 50 && s.data.all isIdChar

/-- `isValidOptionIndex` from `src/lib/security.ts`: an integer `index` with
`0 ≤ index < maxOptions`. -/
def isValidOptionIndex (index : Int) (maxOptions : Nat) : Bool :=
  0 ≤ index && index < (maxOptions : Int)

/-! ## Rate limiter (`lib/rate-limit.ts`) -/

/-- A fully resolved `RateLimitConfig`. -/
structure RateLimitConfig where
  windowMs : Nat
  maxRequests : Nat
  deriving DecidableEq

/-- A `Partial<RateLimitConfig>` argument: each field may be absent. -/
structure RateLimitConfigOpt where
  windowMs : Option Nat := none
  maxRequests : Option Nat := none
  deriving DecidableEq

/-- The module-level `defaultConfig`: 100 requests per 15 minutes. -/
def defaultConfig : RateLimitConfig :=
  ⟨15 * 60 * 1000, 100⟩

/-- The spread `{ ...defaultConfig, ...config }`. -/
def mergeConfig (c : RateLimitConfigOpt) : RateLimitConfig :=
  ⟨c.windowMs.getD defaultConfig.windowMs, c.maxRequests.getD defaultConfig.maxRequests⟩

/-- Pass a full config as the `Partial<RateLimitConfig>` argument. -/
def RateLimitConfig.opt (c : RateLimitConfig) : RateLimitConfigOpt :=
  ⟨some c.windowMs, some c.maxRequests⟩

/-- An entry of the in-memory `rateLimitStore` map. -/
structure RateLimitData where
  count : Nat
  resetTime : Nat
  deriving DecidableEq

/-- The result record of `checkRateLimit`. -/
structure RateLimitResult where
  allowed : Bool
  remaining : Nat
  resetTime : Nat
  deriving DecidableEq

/-- The `rateLimitStore` map, as an association list where `storeSet` conses
and `storeGet` takes the first (most recent) binding for a key. -/
abbrev RateLimitStore := List (String × RateLimitData)

/-- `rateLimitStore.get(k)`. -/
def storeGet (s : RateLimitStore) (k : String) : Option RateLimitData :=
  match s.find? (fun p => p.1 = k) with
  | some p => some p.2
  | none => none

/-- `rateLimitStore.set(k, v)`. -/
def storeSet (s : RateLimitStore) (k : String) (v : RateLimitData) : RateLimitStore :=
  (k, v) :: s

/-- The key expression ``userId ? `user:${userId}` : `ip:${ip}` `` with
JavaScript truthiness (`null` and `""` are falsy). -/
def rateLimitKey : Option String → String → String
  | some u, ip => if u = "" then "ip:" ++ ip else "user:" ++ u
  | none, ip => "ip:" ++ ip

/-- `checkRateLimit` from `lib/rate-limit.ts`, with the current time and the
mutable store made explicit: returns the result record and the new store. -/
def checkRateLimit (userId : Option String) (ip : String) (config : RateLimitConfigOpt)
    (now : Nat) (store : RateLimitStore) : RateLimitResult × RateLimitStore :=
  let cfg := mergeConfig config
  let key := rateLimitKey userId ip
  let data0 := storeGet store key
  let needReset : Bool :=
    match data0 with
    | none => true
    | some d => decide (d.resetTime < now)
  let d1 : RateLimitData :=
    if needReset then ⟨0, now + cfg.windowMs⟩ else data0.getD ⟨0, 0⟩
  let store1 := if needReset then storeSet store key d1 else store
  if cfg.maxRequests ≤ d1.count then
    (⟨false, 0, d1.resetTime⟩, store1)
  else
    let d2 : RateLimitData := ⟨d1.count + 1, d1.resetTime⟩
    (⟨true, cfg.maxRequests - d2.count, d2.resetTime⟩, storeSet store1 key d2)

/-- `RATE_LIMITS.VOTE`: 5 votes per minute. -/
def RATE_LIMITS_VOTE : RateLimitConfig :=
  ⟨60 * 1000, 5⟩

/-- `RATE_LIMITS.CREATE_POLL`: 10 polls per hour. -/
def RATE_LIMITS_CREATE_POLL : RateLimitConfig :=
  ⟨60 * 60 * 1000, 10⟩

/-- `RATE_LIMITS.GENERAL`: 100 requests per 15 minutes. -/
def RATE_LIMITS_GENERAL : RateLimitConfig :=
  ⟨15 * 60 * 1000, 100⟩

/-! ## Poll service data model (`src/app/lib/actions/poll-actions.ts`) -/

/-- A `FormDataEntryValue`: a string or a `File` (truthy, not a string). -/
inductive FormValue where
  | str (s : String)
  | file
  deriving DecidableEq

/-- JavaScript truthiness of a `FormDataEntryValue` (only `""` is falsy). -/
def FormValue.truthy : FormValue → Bool
  | .str s => !(s = "")
  | .file => true

/-- The `FormData` fields the actions read: `get("question")` (possibly
absent) and `getAll("options")`. -/
structure FormDataModel where
  question : Option FormValue
  options : List FormValue
  deriving DecidableEq

/-- The outcome of `supabase.auth.getUser()`: an auth error, no session, or
an authenticated user id. -/
inductive AuthState where
  | authError (msg : String)
  | anon
  | user (id : String)
  deriving DecidableEq

/-- The user id visible after `const { data: { user } } = ...` (errors leave
`user` null). -/
def authUser : AuthState → Option String
  | .user uid => some uid
  | _ => none

/-- A row of the `polls` table. -/
structure Poll where
  id : String
  userId : String
  question : String
  options : List String
  deriving DecidableEq

/-- A row of the `votes` table. -/
structure Vote where
  pollId : String
  userId : Option String
  optionIndex : Int
  createdAt : Nat
  deriving DecidableEq

/-- The backing store: the `polls` and `votes` tables. -/
structure DB where
  polls : List Poll
  votes : List Vote
  deriving DecidableEq

/-- The exceptions thrown inside the option-sanitizing `map` of
`createPoll` / `updatePoll`.  Each carries the 1-based option number
interpolated into the `Error` message. -/
inductive OptErr where
  | notString (n : Nat)
  | tooLong (n : Nat)
  | empty (n : Nat)
  deriving DecidableEq

/-- The message of the thrown `Error`. -/
def OptErr.message : OptErr → String
  | .notString n => "Option " ++ toString n ++ " must be a string"
  | .tooLong n => "Option " ++ toString n ++ " is too long (max 200 characters)"
  | .empty n => "Option " ++ toString n ++ " cannot be empty"

/-- The `{ error: string | null }` result returned across the action
boundary. -/
structure ActionResult where
  err : Option String
  deriving DecidableEq

/-- One iteration of the option `map` (poll-actions.ts lines 99-117): type
check, length check, emptiness-after-trim check, then sanitize; `n` is the
1-based option number used in the thrown messages. -/
def sanitizeOption (n : Nat) : FormValue → Except OptErr String
  | .file => .error (.notString n)
  | .str o =>
    if 200 < o.length then .error (.tooLong n)
    else if (jsTrim o).length = 0 then .error (.empty n)
    else .ok (sanitizeInput o)

/-- The whole `options.map(...)`, which throws at the first offending
option. -/
def sanitizeOptionsFrom (n : Nat) : List FormValue → Except OptErr (List String)
  | [] => .ok []
  | v :: vs =>
    match sanitizeOption n v with
    | .error e => .error e
    | .ok s =>
      match sanitizeOptionsFrom (n + 1) vs with
      | .error e => .error e
      | .ok rest => .ok (s :: rest)

/-- Outcome of the shared validation pipeline of `createPoll` / `updatePoll`:
either an early `{ error: msg }` return, or the sanitized question and
options. -/
inductive FormCheck where
  | reject (msg : String)
  | accept (q : String) (opts : List String)
  deriving DecidableEq

/-- The validation/sanitization pipeline shared verbatim by `createPoll`
(lines 64-122) and `updatePoll` (lines 478-522): question presence/type,
raw-length bounds, question sanitization, the `filter(Boolean)` option
pre-filter, option-count bounds, and the throwing per-option pass. -/
def checkPollForm (fd : FormDataModel) : Except OptErr FormCheck :=
  match fd.question with
  | none => .ok (.reject "Question is required")
  | some .file => .ok (.reject "Question is required")
  | some (.str q) =>
    if q = "" then .ok (.reject "Question is required")
    else if 500 < q.length then .ok (.reject "Question is too long (max 500 characters)")
    else if q.length < 3 then .ok (.reject "Question is too short (min 3 characters)")
    else
      let sanitizedQuestion := sanitizeInput q
      let options := fd.options.filter FormValue.truthy
      if options.length < 2 then .ok (.reject "Please provide at least two options.")
      else if 10 < options.length then .ok (.reject "Too many options (max 10)")
      else
        match sanitizeOptionsFrom 1 options with
        | .error e => .error e
        | .ok sanitizedOptions =>
          if sanitizedOptions.length < 2 then
            .ok (.reject "At least two non-empty options are required.")
          else
            .ok (.accept sanitizedQuestion sanitizedOptions)

/-- `createPoll` from `src/app/lib/actions/poll-actions.ts`.  Explicit
inputs: the form data, the auth outcome, the current time, the rate-limit
store, the database, the id the store would assign to a new row, and whether
the store's insert fails (`insertErr`).  An `Except.error` is an uncaught
exception escaping the action. -/
def createPoll (fd : FormDataModel) (auth : AuthState) (now : Nat)
    (rl : RateLimitStore) (db : DB) (newId : String) (insertErr : Option String) :
    Except OptErr (ActionResult × DB × RateLimitStore) :=
  match checkPollForm fd with
  | .error e => .error e
  | .ok (.reject m) => .ok (⟨some m⟩, db, rl)
  | .ok (.accept q opts) =>
    match auth with
    | .authError m => .ok (⟨some m⟩, db, rl)
    | .anon => .ok (⟨some "You must be logged in to create a poll."⟩, db, rl)
    | .user uid =>
      let res := checkRateLimit (some uid) "" RATE_LIMITS_CREATE_POLL.opt now rl
      if res.1.allowed then
        match insertErr with
        | some m => .ok (⟨some m⟩, db, res.2)
        | none =>
          .ok (⟨none⟩, { db with polls := db.polls ++ [⟨newId, uid, q, opts⟩] }, res.2)
      else
        .ok (⟨some ("Rate limit exceeded. You can create "
          ++ toString RATE_LIMITS_CREATE_POLL.maxRequests
          ++ " polls per hour. Try again later.")⟩, db, res.2)

/-- `updatePoll` from `src/app/lib/actions/poll-actions.ts`: poll-id format
check, the same validation pipeline, auth, then a conditional update filtered
by `id` and `user_id` (zero affected rows is still success).  `updateErr` is
a store-reported failure of the update statement. -/
def updatePoll (pollId : String) (fd : FormDataModel) (auth : AuthState)
    (db : DB) (updateErr : Option String) : Except OptErr (ActionResult × DB) :=
  if !isValidPollId pollId then .ok (⟨some "Invalid poll ID"⟩, db)
  else
    match checkPollForm fd with
    | .error e => .error e
    | .ok (.reject m) => .ok (⟨some m⟩, db)
    | .ok (.accept q opts) =>
      match auth with
      | .authError m => .ok (⟨some m⟩, db)
      | .anon => .ok (⟨some "You must be logged in to update a poll."⟩, db)
      | .user uid =>
        match updateErr with
        | some m => .ok (⟨some m⟩, db)
        | none =>
          .ok (⟨none⟩, { db with polls := db.polls.map (fun p =>
            if p.id = pollId && p.userId = uid then
              { p with question := q, options := opts }
            else p) })

/-- `deletePoll` from `src/app/lib/actions/poll-actions.ts`: auth check,
poll-id format check, then a conditional delete filtered by `id` and
`user_id` (zero affected rows is still success).  `deleteErr` is a
store-reported failure of the delete statement. -/
def deletePoll (id : String) (auth : AuthState) (db : DB)
    (deleteErr : Option String) : ActionResult × DB :=
  match auth with
  | .user uid =>
    if !isValidPollId id then (⟨some "Invalid poll ID"⟩, db)
    else
      match deleteErr with
      | some m => (⟨some m⟩, db)
      | none =>
        (⟨none⟩, { db with polls := db.polls.filter (fun p =>
          !(p.id = id && p.userId = uid)) })
  | _ => (⟨some "Authentication required"⟩, db)

/-- `submitVote` from `src/app/lib/actions/poll-actions.ts`: id and index
validation, poll lookup via `.single()` (which fails unless exactly one row
matches), bounds check, rate limiting keyed on `user?.id ?? ''`, the
duplicate-vote lookup via `.single()` (which reports an existing vote only
when exactly one row matches), then the insert.  `insertErr` is a
store-reported failure of the insert statement. -/
def submitVote (pollId : String) (optionIndex : Int) (auth : AuthState) (now : Nat)
    (rl : RateLimitStore) (db : DB) (insertErr : Option String) :
    ActionResult × DB × RateLimitStore :=
  if !isValidPollId pollId then (⟨some "Invalid poll ID"⟩, db, rl)
  else if optionIndex < 0 then (⟨some "Invalid option index"⟩, db, rl)
  else
    match db.polls.filter (fun p => p.id = pollId) with
    | [poll] =>
      if !isValidOptionIndex optionIndex poll.options.length then
        (⟨some "Invalid option selected"⟩, db, rl)
      else
        let user := authUser auth
        let res := checkRateLimit (some (user.getD "")) "" RATE_LIMITS_VOTE.opt now rl
        if !res.1.allowed then
          (⟨some ("Rate limit exceeded. You can vote "
            ++ toString RATE_LIMITS_VOTE.maxRequests
            ++ " times per minute. Try again later.")⟩, db, res.2)
        else
          let isDup : Bool :=
            match user with
            | some uid =>
              (db.votes.filter (fun v =>
                v.pollId = pollId && v.userId = some uid)).length = 1
            | none => false
          if isDup then (⟨some "You have already voted on this poll"⟩, db, res.2)
          else
            match insertErr with
            | some m => (⟨some m⟩, db, res.2)
            | none =>
              (⟨none⟩, { db with votes := db.votes ++ [⟨pollId, user, optionIndex, now⟩] },
                res.2)
    | _ => (⟨some "Poll not found"⟩, db, rl)

/-! ## Lemmas about the sanitizer -/

theorem dropWhile_ne_head {p : Char → Bool} :
    ∀ {l : List Char} {c : Char} {cs : List Char}, l.dropWhile p = c :: cs → p c = false := by
  intro l
  induction l with
  | nil => intro c cs h; simp at h
  | cons a t ih =>
    intro c cs h
    rw [List.dropWhile_cons] at h
    split at h
    · exact ih h
    · next hpa =>
      cases h
      simpa using hpa

theorem dropWhile_dropWhile (p : Char → Bool) (l : List Char) :
    (l.dropWhile p).dropWhile p = l.dropWhile p := by
  cases h : l.dropWhile p with
  | nil => simp
  | cons c cs =>
    have hc : p c = false := dropWhile_ne_head h
    rw [List.dropWhile_cons_of_neg]
    simp [hc]

theorem mem_of_mem_trimChars {a : Char} {l : List Char} (h : a ∈ trimChars l) : a ∈ l := by
  unfold trimChars at h
  rw [List.mem_reverse] at h
  have h2 := List.dropWhile_subset isJsWhite h
  rw [List.mem_reverse] at h2
  exact List.dropWhile_subset isJsWhite h2

theorem trimChars_length_le (l : List Char) : (trimChars l).length ≤ l.length := by
  unfold trimChars
  rw [List.length_reverse]
  calc ((l.dropWhile isJsWhite).reverse.dropWhile isJsWhite).length
      ≤ (l.dropWhile isJsWhite).reverse.length := (List.dropWhile_suffix _).length_le
    _ = (l.dropWhile isJsWhite).length := List.length_reverse _
    _ ≤ l.length := (List.dropWhile_suffix _).length_le

theorem trimChars_idem (l : List Char) : trimChars (trimChars l) = trimChars l := by
  unfold trimChars
  have h1 : ((l.dropWhile isJsWhite).reverse.dropWhile isJsWhite).reverse.dropWhile isJsWhite
      = ((l.dropWhile isJsWhite).reverse.dropWhile isJsWhite).reverse := by
    cases hc : ((l.dropWhile isJsWhite).reverse.dropWhile isJsWhite).reverse with
    | nil => simp
    | cons c cs =>
      have hsf : (l.dropWhile isJsWhite).reverse.dropWhile isJsWhite
          <:+ (l.dropWhile isJsWhite).reverse := List.dropWhile_suffix _
      have hpre : ((l.dropWhile isJsWhite).reverse.dropWhile isJsWhite).reverse
          <+: l.dropWhile isJsWhite := by
        rw [← List.reverse_suffix]
        simpa using hsf
      rw [hc] at hpre
      obtain ⟨t, ht⟩ := hpre
      have hdw : l.dropWhile isJsWhite = c :: (cs ++ t) := by
        rw [← ht]; rfl
      have hpc : isJsWhite c = false := dropWhile_ne_head hdw
      rw [List.dropWhile_cons_of_neg]
      simp [hpc]
  rw [h1, List.reverse_reverse, dropWhile_dropWhile]

theorem matchesPairs_mem :
    ∀ (ps : List (Char × Char)) (l : List Char), matchesPairs ps l = true →
      ∀ pr ∈ ps, ∃ c ∈ l, ciEq c pr = true := by
  intro ps
  induction ps with
  | nil =>
    intro l _ pr hpr
    simp at hpr
  | cons p ps ih =>
    intro l h pr hpr
    cases l with
    | nil => simp [matchesPairs] at h
    | cons c cs =>
      rw [matchesPairs, Bool.and_eq_true] at h
      rcases List.mem_cons.mp hpr with rfl | hpr'
      · exact ⟨c, List.mem_cons_self c cs, h.1⟩
      · obtain ⟨c', hc', hci⟩ := ih cs h.2 pr hpr'
        exact ⟨c', List.mem_cons_of_mem _ hc', hci⟩

theorem jsAt_eq_false {l : List Char} (h : ':' ∉ l) : jsAt l = false := by
  cases hj : jsAt l with
  | false => rfl
  | true =>
    exfalso
    obtain ⟨c, hcl, hci⟩ := matchesPairs_mem jsPairs l hj (':', ':') (by simp [jsPairs])
    have : c = ':' := by
      simpa [ciEq] using hci
    exact h (this ▸ hcl)

theorem removeJsAux_eq_self :
    ∀ (fuel : Nat) (l : List Char), ':' ∉ l → removeJsAux fuel l = l := by
  intro fuel
  induction fuel with
  | zero => intro l _; rfl
  | succ n ih =>
    intro l h
    cases l with
    | nil => rfl
    | cons c cs =>
      rw [removeJsAux, jsAt_eq_false h]
      simp only [Bool.false_eq_true, if_false]
      rw [ih cs (fun hm => h (List.mem_cons_of_mem _ hm))]

theorem removeJs_eq_self {l : List Char} (h : ':' ∉ l) : removeJs l = l :=
  removeJsAux_eq_self _ l h

theorem removeJsAux_length_le :
    ∀ (fuel : Nat) (l : List Char), (removeJsAux fuel l).length ≤ l.length := by
  intro fuel
  induction fuel with
  | zero => intro l; exact Nat.le_refl _
  | succ n ih =>
    intro l
    cases l with
    | nil => exact Nat.le_refl _
    | cons c cs =>
      rw [removeJsAux]
      by_cases hj : jsAt (c :: cs) = true
      · rw [if_pos hj]
        calc (removeJsAux n (cs.drop 10)).length ≤ (cs.drop 10).length := ih _
          _ ≤ cs.length := by rw [List.length_drop]; omega
          _ ≤ (c :: cs).length := by simp
      · rw [if_neg hj]
        have := ih cs
        simp only [List.length_cons]
        omega

theorem onMatchLen_mem {c : Char} {cs : List Char} {k : Nat}
    (h : onMatchLen c cs = some k) : '=' ∈ cs := by
  unfold onMatchLen at h
  split at h
  · cases cs with
    | nil => simp at h
    | cons c2 rest =>
      simp only at h
      split at h
      · split at h
        · next hcond =>
          exact List.mem_cons_of_mem _ (List.getElem?_mem hcond.2)
        · simp at h
      · simp at h
  · simp at h

theorem removeOnAux_eq_self :
    ∀ (fuel : Nat) (l : List Char), '=' ∉ l → removeOnAux fuel l = l := by
  intro fuel
  induction fuel with
  | zero => intro l _; rfl
  | succ n ih =>
    intro l h
    cases l with
    | nil => rfl
    | cons c cs =>
      rw [removeOnAux]
      cases hm : onMatchLen c cs with
      | some k =>
        exact absurd (List.mem_cons_of_mem _ (onMatchLen_mem hm)) h
      | none =>
        rw [ih cs (fun hmem => h (List.mem_cons_of_mem _ hmem))]

theorem removeOn_eq_self {l : List Char} (h : '=' ∉ l) : removeOn l = l :=
  removeOnAux_eq_self _ l h

theorem removeOnAux_length_le :
    ∀ (fuel : Nat) (l : List Char), (removeOnAux fuel l).length ≤ l.length := by
  intro fuel
  induction fuel with
  | zero => intro l; exact Nat.le_refl _
  | succ n ih =>
    intro l
    cases l with
    | nil => exact Nat.le_refl _
    | cons c cs =>
      rw [removeOnAux]
      cases hm : onMatchLen c cs with
      | some k =>
        calc (removeOnAux n (cs.drop k)).length ≤ (cs.drop k).length := ih _
          _ ≤ cs.length := by rw [List.length_drop]; omega
          _ ≤ (c :: cs).length := by simp
      | none =>
        have := ih cs
        simp only [List.length_cons]
        omega

theorem removeAngle_eq_self {l : List Char} (h1 : '<' ∉ l) (h2 : '>' ∉ l) :
    removeAngle l = l := by
  unfold removeAngle
  rw [List.filter_eq_self]
  intro a ha
  unfold notAngle
  simp only [Bool.not_eq_true']
  rcases Decidable.em (a = '<') with rfl | hne1
  · exact absurd ha h1
  rcases Decidable.em (a = '>') with rfl | hne2
  · exact absurd ha h2
  simp [hne1, hne2]

theorem sanitizeChars_length_le (l : List Char) : (sanitizeChars l).length ≤ l.length := by
  unfold sanitizeChars removeOn removeJs
  calc ((removeOnAux (removeJsAux (removeAngle (trimChars l)).length
            (removeAngle (trimChars l))).length
          (removeJsAux (removeAngle (trimChars l)).length
            (removeAngle (trimChars l)))).take 1000).length
      ≤ (removeOnAux _ (removeJsAux _ (removeAngle (trimChars l)))).length :=
        (List.take_sublist _ _).length_le
    _ ≤ (removeJsAux _ (removeAngle (trimChars l))).length := removeOnAux_length_le _ _
    _ ≤ (removeAngle (trimChars l)).length := removeJsAux_length_le _ _
    _ ≤ (trimChars l).length := List.length_filter_le _ _
    _ ≤ l.length := trimChars_length_le _

theorem sanitizeInput_length_le (s : String) : (sanitizeInput s).length ≤ s.length := by
  unfold sanitizeInput String.length
  exact sanitizeChars_length_le s.data

theorem sanitizeChars_eq_trimChars {l : List Char}
    (h1 : '<' ∉ l) (h2 : '>' ∉ l) (h3 : ':' ∉ l) (h4 : '=' ∉ l) (h5 : l.length ≤ 1000) :
    sanitizeChars l = trimChars l := by
  unfold sanitizeChars
  rw [removeAngle_eq_self (fun hm => h1 (mem_of_mem_trimChars hm))
        (fun hm => h2 (mem_of_mem_trimChars hm)),
      removeJs_eq_self (fun hm => h3 (mem_of_mem_trimChars hm)),
      removeOn_eq_self (fun hm => h4 (mem_of_mem_trimChars hm))]
  exact List.take_of_length_le (Nat.le_trans (trimChars_length_le l) h5)

theorem sanitizeChars_idem_of_clean {l : List Char}
    (h1 : '<' ∉ l) (h2 : '>' ∉ l) (h3 : ':' ∉ l) (h4 : '=' ∉ l) (h5 : l.length ≤ 1000) :
    sanitizeChars (sanitizeChars l) = sanitizeChars l := by
  rw [sanitizeChars_eq_trimChars h1 h2 h3 h4 h5]
  rw [sanitizeChars_eq_trimChars
        (fun hm => h1 (mem_of_mem_trimChars hm))
        (fun hm => h2 (mem_of_mem_trimChars hm))
        (fun hm => h3 (mem_of_mem_trimChars hm))
        (fun hm => h4 (mem_of_mem_trimChars hm))
        (Nat.le_trans (trimChars_length_le l) h5)]
  exact trimChars_idem l

/-! ## Lemmas about the rate limiter -/

theorem storeGet_storeSet_self (s : RateLimitStore) (k : String) (v : RateLimitData) :
    storeGet (storeSet s k v) k = some v := by
  simp [storeGet, storeSet, List.find?_cons_of_pos]

theorem checkRateLimit_fresh_step (u : Option String) (ip : String)
    (cfg : RateLimitConfigOpt) (now : Nat) (s : RateLimitStore)
    (hget : storeGet s (rateLimitKey u ip) = none)
    (hmax : 0 < (mergeConfig cfg).maxRequests) :
    (checkRateLimit u ip cfg now s).1 =
        ⟨true, (mergeConfig cfg).maxRequests - 1, now + (mergeConfig cfg).windowMs⟩ ∧
      (checkRateLimit u ip cfg now s).2 =
        storeSet (storeSet s (rateLimitKey u ip) ⟨0, now + (mergeConfig cfg).windowMs⟩)
          (rateLimitKey u ip) ⟨1, now + (mergeConfig cfg).windowMs⟩ := by
  unfold checkRateLimit
  simp only [hget]
  simp [Nat.not_le.mpr hmax]

theorem checkRateLimit_allowed_step (u : Option String) (ip : String)
    (cfg : RateLimitConfigOpt) (now : Nat) (s : RateLimitStore) (c R : Nat)
    (hget : storeGet s (rateLimitKey u ip) = some ⟨c, R⟩)
    (hnow : now ≤ R) (hc : c < (mergeConfig cfg).maxRequests) :
    (checkRateLimit u ip cfg now s).1 =
        ⟨true, (mergeConfig cfg).maxRequests - (c + 1), R⟩ ∧
      (checkRateLimit u ip cfg now s).2 = storeSet s (rateLimitKey u ip) ⟨c + 1, R⟩ := by
  unfold checkRateLimit
  simp only [hget]
  simp [Nat.not_lt.mpr hnow, Nat.not_le.mpr hc]

theorem checkRateLimit_blocked_step (u : Option String) (ip : String)
    (cfg : RateLimitConfigOpt) (now : Nat) (s : RateLimitStore) (c R : Nat)
    (hget : storeGet s (rateLimitKey u ip) = some ⟨c, R⟩)
    (hnow : now ≤ R) (hc : (mergeConfig cfg).maxRequests ≤ c) :
    (checkRateLimit u ip cfg now s).1 = ⟨false, 0, R⟩ ∧
      (checkRateLimit u ip cfg now s).2 = s := by
  unfold checkRateLimit
  simp only [hget]
  simp [Nat.not_lt.mpr hnow, hc]

theorem checkRateLimit_expired_step (u : Option String) (ip : String)
    (cfg : RateLimitConfigOpt) (now : Nat) (s : RateLimitStore) (c R : Nat)
    (hget : storeGet s (rateLimitKey u ip) = some ⟨c, R⟩)
    (hnow : R < now) (hmax : 0 < (mergeConfig cfg).maxRequests) :
    (checkRateLimit u ip cfg now s).1 =
        ⟨true, (mergeConfig cfg).maxRequests - 1, now + (mergeConfig cfg).windowMs⟩ ∧
      (checkRateLimit u ip cfg now s).2 =
        storeSet (storeSet s (rateLimitKey u ip) ⟨0, now + (mergeConfig cfg).windowMs⟩)
          (rateLimitKey u ip) ⟨1, now + (mergeConfig cfg).windowMs⟩ := by
  unfold checkRateLimit
  simp only [hget]
  simp [hnow, Nat.not_le.mpr hmax]

/-! ## Lemmas about the validation pipeline -/

/-- An option value on which the per-option pass of `createPoll`/`updatePoll`
throws: a non-string, an over-long string, or a string that is empty after
trimming. -/
def isBadOpt : FormValue → Bool
  | .file => true
  | .str o => decide (200 < o.length) || decide ((jsTrim o).length = 0)

theorem sanitizeOption_error_of_bad {v : FormValue} (n : Nat) (h : isBadOpt v = true) :
    ∃ e, sanitizeOption n v = .error e := by
  cases v with
  | file => exact ⟨.notString n, rfl⟩
  | str o =>
    simp only [isBadOpt, Bool.or_eq_true, decide_eq_true_eq] at h
    simp only [sanitizeOption]
    rcases Decidable.em (200 < o.length) with hl | hl
    · exact ⟨.tooLong n, by rw [if_pos hl]⟩
    · have he : (jsTrim o).length = 0 := h.resolve_left hl
      exact ⟨.empty n, by rw [if_neg hl, if_pos he]⟩

theorem sanitizeOptionsFrom_error_of_bad :
    ∀ (n : Nat) (l : List FormValue), (∃ v ∈ l, isBadOpt v = true) →
      ∃ e, sanitizeOptionsFrom n l = .error e := by
  intro n l
  induction l generalizing n with
  | nil => intro h; obtain ⟨v, hv, _⟩ := h; simp at hv
  | cons v vs ih =>
    intro h
    obtain ⟨w, hw, hbad⟩ := h
    cases hv : sanitizeOption n v with
    | error e =>
      exact ⟨e, by rw [sanitizeOptionsFrom, hv]⟩
    | ok s0 =>
      rcases List.mem_cons.mp hw with rfl | hw'
      · obtain ⟨e, he⟩ := sanitizeOption_error_of_bad n hbad
        rw [hv] at he
        cases he
      · obtain ⟨e, he⟩ := ih (n + 1) ⟨w, hw', hbad⟩
        refine ⟨e, ?_⟩
        rw [sanitizeOptionsFrom, hv, he]

theorem sanitizeOptionsFrom_ok :
    ∀ (n : Nat) (l : List FormValue) (res : List String),
      sanitizeOptionsFrom n l = .ok res →
      res.length = l.length ∧
        ∀ s ∈ res, ∃ o : String, FormValue.str o ∈ l ∧ o.length ≤ 200 ∧
          (jsTrim o).length ≠ 0 ∧ s = sanitizeInput o := by
  intro n l
  induction l generalizing n with
  | nil =>
    intro res h
    rw [sanitizeOptionsFrom] at h
    cases h
    exact ⟨rfl, by intro s hs; simp at hs⟩
  | cons v vs ih =>
    intro res h
    rw [sanitizeOptionsFrom] at h
    cases hv : sanitizeOption n v with
    | error e => rw [hv] at h; cases h
    | ok s0 =>
      rw [hv] at h
      cases hrest : sanitizeOptionsFrom (n + 1) vs with
      | error e => rw [hrest] at h; cases h
      | ok rest =>
        rw [hrest] at h
        cases h
        obtain ⟨hlen, hfacts⟩ := ih (n + 1) rest hrest
        constructor
        · simp [hlen]
        · intro s hs
          rcases List.mem_cons.mp hs with rfl | hs'
          · cases v with
            | file => rw [sanitizeOption] at hv; cases hv
            | str o =>
              rw [sanitizeOption] at hv
              split at hv
              · cases hv
              · split at hv
                · cases hv
                · next hlong hempty =>
                  cases hv
                  exact ⟨o, List.mem_cons_self _ _, Nat.le_of_not_lt hlong, hempty, rfl⟩
          · obtain ⟨o, ho, h200, hne, hsan⟩ := hfacts s hs'
            exact ⟨o, List.mem_cons_of_mem _ ho, h200, hne, hsan⟩

theorem sanitizeOptionsFrom_error_empty :
    ∀ (n k : Nat) (l : List FormValue),
      sanitizeOptionsFrom n l = .error (.empty k) →
      ∃ o : String, FormValue.str o ∈ l ∧ (jsTrim o).length = 0 := by
  intro n k l
  induction l generalizing n with
  | nil => intro h; rw [sanitizeOptionsFrom] at h; cases h
  | cons v vs ih =>
    intro h
    rw [sanitizeOptionsFrom] at h
    cases hv : sanitizeOption n v with
    | error e =>
      rw [hv] at h
      cases h
      cases v with
      | file => rw [sanitizeOption] at hv; cases hv
      | str o =>
        rw [sanitizeOption] at hv
        split at hv
        · cases hv
        · split at hv
          · next hempty =>
            cases hv
            exact ⟨o, List.mem_cons_self _ _, hempty⟩
          · cases hv
    | ok s0 =>
      rw [hv] at h
      cases hrest : sanitizeOptionsFrom (n + 1) vs with
      | error e =>
        rw [hrest] at h
        cases h
        obtain ⟨o, ho, hemp⟩ := ih (n + 1) hrest
        exact ⟨o, List.mem_cons_of_mem _ ho, hemp⟩
      | ok rest =>
        rw [hrest] at h
        cases h

theorem checkPollForm_error {fd : FormDataModel} {e : OptErr}
    (h : checkPollForm fd = .error e) :
    sanitizeOptionsFrom 1 (fd.options.filter FormValue.truthy) = .error e := by
  unfold checkPollForm at h
  cases hq : fd.question with
  | none => rw [hq] at h; cases h
  | some v =>
    cases v with
    | file => rw [hq] at h; cases h
    | str q =>
      rw [hq] at h
      simp only at h
      split at h
      · cases h
      · split at h
        · cases h
        · split at h
          · cases h
          · split at h
            · cases h
            · split at h
              · cases h
              · split at h
                · next heq => exact heq ▸ (by cases h; rfl)
                · split at h
                  · cases h
                  · cases h

theorem checkPollForm_accept {fd : FormDataModel} {q : String} {opts : List String}
    (h : checkPollForm fd = .ok (.accept q opts)) :
    ∃ rawq : String, fd.question = some (.str rawq) ∧ ¬rawq = "" ∧
      rawq.length ≤ 500 ∧ 3 ≤ rawq.length ∧ q = sanitizeInput rawq ∧
      sanitizeOptionsFrom 1 (fd.options.filter FormValue.truthy) = .ok opts ∧
      2 ≤ opts.length ∧ (fd.options.filter FormValue.truthy).length ≤ 10 := by
  unfold checkPollForm at h
  cases hq : fd.question with
  | none => rw [hq] at h; cases h
  | some v =>
    cases v with
    | file => rw [hq] at h; cases h
    | str rawq =>
      rw [hq] at h
      simp only at h
      refine ⟨rawq, rfl, ?_⟩
      split at h
      · cases h
      · next hne =>
        split at h
        · cases h
        · next hlong =>
          split at h
          · cases h
          · next hshort =>
            split at h
            · cases h
            · next hfew =>
              split at h
              · cases h
              · next hmany =>
                split at h
                · cases h
                · next hok =>
                  split at h
                  · cases h
                  · next htwo =>
                    cases h
                    exact ⟨hne, Nat.le_of_not_lt hlong, Nat.le_of_not_lt hshort, rfl,
                      hok, Nat.le_of_not_lt htwo, Nat.le_of_not_lt hmany⟩

theorem checkPollForm_too_few {fd : FormDataModel} {q : String}
    (hq : fd.question = some (.str q)) (h1 : ¬q = "") (h2 : q.length ≤ 500)
    (h3 : 3 ≤ q.length) (hfew : (fd.options.filter FormValue.truthy).length < 2) :
    checkPollForm fd = .ok (.reject "Please provide at least two options.") := by
  unfold checkPollForm
  rw [hq]
  simp only
  rw [if_neg h1, if_neg (Nat.not_lt.mpr h2), if_neg (Nat.not_lt.mpr h3), if_pos hfew]

theorem checkPollForm_error_of_bad {fd : FormDataModel} {q : String}
    (hq : fd.question = some (.str q)) (h1 : ¬q = "") (h2 : q.length ≤ 500)
    (h3 : 3 ≤ q.length) (hfew : 2 ≤ (fd.options.filter FormValue.truthy).length)
    (hmany : (fd.options.filter FormValue.truthy).length ≤ 10)
    (hbad : ∃ v ∈ fd.options.filter FormValue.truthy, isBadOpt v = true) :
    ∃ e, checkPollForm fd = .error e := by
  obtain ⟨e, he⟩ := sanitizeOptionsFrom_error_of_bad 1 _ hbad
  refine ⟨e, ?_⟩
  unfold checkPollForm
  rw [hq]
  simp only
  rw [if_neg h1, if_neg (Nat.not_lt.mpr h2), if_neg (Nat.not_lt.mpr h3),
    if_neg (Nat.not_lt.mpr hfew), if_neg (Nat.not_lt.mpr hmany), he]

/-! ## Lemmas about the actions -/

theorem createPoll_error_iff {fd : FormDataModel} {auth : AuthState} {now : Nat}
    {rl : RateLimitStore} {db : DB} {newId : String} {insertErr : Option String}
    {e : OptErr} :
    createPoll fd auth now rl db newId insertErr = .error e ↔
      checkPollForm fd = .error e := by
  constructor
  · intro h
    unfold createPoll at h
    cases hc : checkPollForm fd with
    | error e2 => rw [hc] at h; cases h; rfl
    | ok fc =>
      rw [hc] at h
      cases fc with
      | reject m => cases h
      | accept q opts =>
        cases auth with
        | authError m => cases h
        | anon => cases h
        | user uid =>
          simp only at h
          split at h
          · split at h
            · cases h
            · cases h
          · cases h
  · intro h
    unfold createPoll
    rw [h]

theorem updatePoll_error_iff {pollId : String} {fd : FormDataModel} {auth : AuthState}
    {db : DB} {updateErr : Option String} {e : OptErr}
    (hpid : isValidPollId pollId = true) :
    updatePoll pollId fd auth db updateErr = .error e ↔ checkPollForm fd = .error e := by
  unfold updatePoll
  rw [hpid]
  simp only [Bool.not_true, Bool.false_eq_true, if_false]
  constructor
  · intro h
    cases hc : checkPollForm fd with
    | error e2 => rw [hc] at h; cases h; rfl
    | ok fc =>
      rw [hc] at h
      cases fc with
      | reject m => cases h
      | accept q opts =>
        cases auth with
        | authError m => cases h
        | anon => cases h
        | user uid =>
          simp only at h
          split at h
          · cases h
          · cases h
  · intro h
    rw [h]

theorem createPoll_ok_insert {fd : FormDataModel} {auth : AuthState} {now : Nat}
    {rl : RateLimitStore} {db : DB} {newId : String} {insertErr : Option String}
    {db2 : DB} {rl2 : RateLimitStore}
    (h : createPoll fd auth now rl db newId insertErr = .ok (⟨none⟩, db2, rl2)) :
    ∃ uid q opts, auth = .user uid ∧ checkPollForm fd = .ok (.accept q opts) ∧
      db2 = { db with polls := db.polls ++ [⟨newId, uid, q, opts⟩] } := by
  unfold createPoll at h
  cases hc : checkPollForm fd with
  | error e => rw [hc] at h; cases h
  | ok fc =>
    rw [hc] at h
    cases fc with
    | reject m => cases h
    | accept q opts =>
      cases auth with
      | authError m => cases h
      | anon => cases h
      | user uid =>
        simp only at h
        split at h
        · cases hins : insertErr with
          | some m => rw [hins] at h; cases h
          | none =>
            rw [hins] at h
            cases h
            exact ⟨uid, q, opts, rfl, rfl, rfl⟩
        · cases h

theorem checkPollForm_filter_invariant (fd : FormDataModel) :
    checkPollForm ⟨fd.question, fd.options.filter FormValue.truthy⟩ = checkPollForm fd := by
  have hff : (fd.options.filter FormValue.truthy).filter FormValue.truthy
      = fd.options.filter FormValue.truthy := by
    rw [List.filter_filter]
    exact List.filter_congr (fun a _ => Bool.and_self _)
  obtain ⟨qf, opts⟩ := fd
  cases qf with
  | none => rfl
  | some v =>
    cases v with
    | file => rfl
    | str q =>
      simp only [checkPollForm] at hff ⊢
      rw [hff]

theorem updatePoll_error_to {pollId : String} {fd : FormDataModel} {auth : AuthState}
    {db : DB} {updateErr : Option String} {e : OptErr}
    (h : updatePoll pollId fd auth db updateErr = .error e) :
    checkPollForm fd = .error e := by
  unfold updatePoll at h
  split at h
  · cases h
  · cases hc : checkPollForm fd with
    | error e2 => rw [hc] at h; cases h; rfl
    | ok fc =>
      rw [hc] at h
      cases fc with
      | reject m => cases h
      | accept q opts =>
        cases auth with
        | authError m => cases h
        | anon => cases h
        | user uid =>
          simp only at h
          split at h
          · cases h
          · cases h

/-! ## Claim theorems -/

/-- Claim C4, counterexample: the sanitizer is not idempotent as claimed.  On
`"< a >"` the first pass strips the angle brackets after trimming and leaves
`" a "`, which a second pass trims further to `"a"`. -/
theorem c4_counterexample :
    sanitizeInput (sanitizeInput "< a >") ≠ sanitizeInput "< a >" := by
  decide

/-- Claim C4 (amended): the sanitizer is idempotent on inputs of at most 1000
characters that contain none of the characters removed or inspected by the
replacement passes (`<`, `>`, `:`, `=`); in general a second application can
differ, e.g. by trimming whitespace exposed by angle-bracket removal. -/
theorem c4_sanitize_idem_of_clean (s : String)
    (h1 : '<' ∉ s.data) (h2 : '>' ∉ s.data) (h3 : ':' ∉ s.data) (h4 : '=' ∉ s.data)
    (h5 : s.length ≤ 1000) :
    sanitizeInput (sanitizeInput s) = sanitizeInput s := by
  have h5d : s.data.length ≤ 1000 := h5
  show String.mk (sanitizeChars (String.mk (sanitizeChars s.data)).data)
      = String.mk (sanitizeChars s.data)
  exact congrArg String.mk (sanitizeChars_idem_of_clean h1 h2 h3 h4 h5d)

/-- Witness for C4 (amended) at a concrete clean input. -/
theorem c4_witness :
    '<' ∉ "hello world".data ∧
    sanitizeInput (sanitizeInput "hello world") = sanitizeInput "hello world" :=
  ⟨by decide, c4_sanitize_idem_of_clean "hello world" (by decide) (by decide) (by decide)
    (by decide) (by decide)⟩

/-- Claim C3: with the `VOTE` policy (`maxRequests = 5`, `windowMs = 60000`) and a
fresh actor key, five consecutive `checkRateLimit` calls within one window
are allowed; the sixth call in the same window returns
`allowed = false, remaining = 0` and leaves the store unchanged; and a call
after `resetAt` has passed is allowed again with a fresh window
(`count = 1`, `resetAt = now + windowMs`). -/
theorem c3_rate_limit_window (u : Option String) (ip : String) (s0 : RateLimitStore)
    (t1 t2 t3 t4 t5 t6 t7 : Nat)
    (h0 : storeGet s0 (rateLimitKey u ip) = none)
    (h12 : t1 ≤ t2) (h23 : t2 ≤ t3) (h34 : t3 ≤ t4) (h45 : t4 ≤ t5) (h56 : t5 ≤ t6)
    (h6w : t6 ≤ t1 + 60000) (h7 : t1 + 60000 < t7) :
    let cfg := RATE_LIMITS_VOTE.opt
    let p1 := checkRateLimit u ip cfg t1 s0
    let p2 := checkRateLimit u ip cfg t2 p1.2
    let p3 := checkRateLimit u ip cfg t3 p2.2
    let p4 := checkRateLimit u ip cfg t4 p3.2
    let p5 := checkRateLimit u ip cfg t5 p4.2
    let p6 := checkRateLimit u ip cfg t6 p5.2
    let p7 := checkRateLimit u ip cfg t7 p6.2
    (p1.1.allowed = true ∧ p2.1.allowed = true ∧ p3.1.allowed = true ∧
      p4.1.allowed = true ∧ p5.1.allowed = true) ∧
    (p6.1 = ⟨false, 0, t1 + 60000⟩ ∧ p6.2 = p5.2) ∧
    (p7.1 = ⟨true, 4, t7 + 60000⟩ ∧
      storeGet p7.2 (rateLimitKey u ip) = some ⟨1, t7 + 60000⟩) := by
  intro cfg p1 p2 p3 p4 p5 p6 p7
  have hwin : (mergeConfig cfg).windowMs = 60000 := rfl
  have hmax : (mergeConfig cfg).maxRequests = 5 := rfl
  have e1a : p1.1 = ⟨true, 4, t1 + 60000⟩ := by
    have h := (checkRateLimit_fresh_step u ip cfg t1 s0 h0 (by simp [hmax])).1
    rw [hmax, hwin] at h
    exact h
  have e1b : p1.2 = storeSet (storeSet s0 (rateLimitKey u ip) ⟨0, t1 + 60000⟩)
      (rateLimitKey u ip) ⟨1, t1 + 60000⟩ := by
    have h := (checkRateLimit_fresh_step u ip cfg t1 s0 h0 (by simp [hmax])).2
    rw [hwin] at h
    exact h
  have g1 : storeGet p1.2 (rateLimitKey u ip) = some ⟨1, t1 + 60000⟩ := by
    rw [e1b]; exact storeGet_storeSet_self _ _ _
  have e2a : p2.1 = ⟨true, 3, t1 + 60000⟩ := by
    have h := (checkRateLimit_allowed_step u ip cfg t2 p1.2 1 (t1 + 60000) g1
      (by omega) (by simp [hmax])).1
    rw [hmax] at h
    exact h
  have e2b : p2.2 = storeSet p1.2 (rateLimitKey u ip) ⟨1 + 1, t1 + 60000⟩ :=
    (checkRateLimit_allowed_step u ip cfg t2 p1.2 1 (t1 + 60000) g1
      (by omega) (by simp [hmax])).2
  have g2 : storeGet p2.2 (rateLimitKey u ip) = some ⟨1 + 1, t1 + 60000⟩ := by
    rw [e2b]; exact storeGet_storeSet_self _ _ _
  have e3a : p3.1 = ⟨true, 2, t1 + 60000⟩ := by
    have h := (checkRateLimit_allowed_step u ip cfg t3 p2.2 2 (t1 + 60000) g2
      (by omega) (by simp [hmax])).1
    rw [hmax] at h
    exact h
  have e3b : p3.2 = storeSet p2.2 (rateLimitKey u ip) ⟨2 + 1, t1 + 60000⟩ :=
    (checkRateLimit_allowed_step u ip cfg t3 p2.2 2 (t1 + 60000) g2
      (by omega) (by simp [hmax])).2
  have g3 : storeGet p3.2 (rateLimitKey u ip) = some ⟨2 + 1, t1 + 60000⟩ := by
    rw [e3b]; exact storeGet_storeSet_self _ _ _
  have e4a : p4.1 = ⟨true, 1, t1 + 60000⟩ := by
    have h := (checkRateLimit_allowed_step u ip cfg t4 p3.2 3 (t1 + 60000) g3
      (by omega) (by simp [hmax])).1
    rw [hmax] at h
    exact h
  have e4b : p4.2 = storeSet p3.2 (rateLimitKey u ip) ⟨3 + 1, t1 + 60000⟩ :=
    (checkRateLimit_allowed_step u ip cfg t4 p3.2 3 (t1 + 60000) g3
      (by omega) (by simp [hmax])).2
  have g4 : storeGet p4.2 (rateLimitKey u ip) = some ⟨3 + 1, t1 + 60000⟩ := by
    rw [e4b]; exact storeGet_storeSet_self _ _ _
  have e5a : p5.1 = ⟨true, 0, t1 + 60000⟩ := by
    have h := (checkRateLimit_allowed_step u ip cfg t5 p4.2 4 (t1 + 60000) g4
      (by omega) (by simp [hmax])).1
    rw [hmax] at h
    exact h
  have e5b : p5.2 = storeSet p4.2 (rateLimitKey u ip) ⟨4 + 1, t1 + 60000⟩ :=
    (checkRateLimit_allowed_step u ip cfg t5 p4.2 4 (t1 + 60000) g4
      (by omega) (by simp [hmax])).2
  have g5 : storeGet p5.2 (rateLimitKey u ip) = some ⟨4 + 1, t1 + 60000⟩ := by
    rw [e5b]; exact storeGet_storeSet_self _ _ _
  have e6a : p6.1 = ⟨false, 0, t1 + 60000⟩ :=
    (checkRateLimit_blocked_step u ip cfg t6 p5.2 5 (t1 + 60000) g5
      (by omega) (by simp [hmax])).1
  have e6b : p6.2 = p5.2 :=
    (checkRateLimit_blocked_step u ip cfg t6 p5.2 5 (t1 + 60000) g5
      (by omega) (by simp [hmax])).2
  have g6 : storeGet p6.2 (rateLimitKey u ip) = some ⟨5, t1 + 60000⟩ := by
    rw [e6b]; exact g5
  have e7a : p7.1 = ⟨true, 4, t7 + 60000⟩ := by
    have h := (checkRateLimit_expired_step u ip cfg t7 p6.2 5 (t1 + 60000) g6
      (by omega) (by simp [hmax])).1
    rw [hmax, hwin] at h
    exact h
  have e7b : p7.2 = storeSet (storeSet p6.2 (rateLimitKey u ip) ⟨0, t7 + 60000⟩)
      (rateLimitKey u ip) ⟨1, t7 + 60000⟩ := by
    have h := (checkRateLimit_expired_step u ip cfg t7 p6.2 5 (t1 + 60000) g6
      (by omega) (by simp [hmax])).2
    rw [hwin] at h
    exact h
  refine ⟨⟨?_, ?_, ?_, ?_, ?_⟩, ⟨e6a, e6b⟩, ⟨e7a, ?_⟩⟩
  · rw [e1a]
  · rw [e2a]
  · rw [e3a]
  · rw [e4a]
  · rw [e5a]
  · rw [e7b]; exact storeGet_storeSet_self _ _ _

/-- Witness for C3 at a concrete actor and concrete times. -/
theorem c3_witness :
    storeGet [] (rateLimitKey (some "u9") "") = none ∧
    (let cfg := RATE_LIMITS_VOTE.opt
     let p1 := checkRateLimit (some "u9") "" cfg 0 []
     let p2 := checkRateLimit (some "u9") "" cfg 1 p1.2
     let p3 := checkRateLimit (some "u9") "" cfg 2 p2.2
     let p4 := checkRateLimit (some "u9") "" cfg 3 p3.2
     let p5 := checkRateLimit (some "u9") "" cfg 4 p4.2
     let p6 := checkRateLimit (some "u9") "" cfg 5 p5.2
     let p7 := checkRateLimit (some "u9") "" cfg 60001 p6.2
     (p1.1.allowed = true ∧ p2.1.allowed = true ∧ p3.1.allowed = true ∧
       p4.1.allowed = true ∧ p5.1.allowed = true) ∧
     (p6.1 = ⟨false, 0, 0 + 60000⟩ ∧ p6.2 = p5.2) ∧
     (p7.1 = ⟨true, 4, 60001 + 60000⟩ ∧
       storeGet p7.2 (rateLimitKey (some "u9") "") = some ⟨1, 60001 + 60000⟩)) :=
  ⟨rfl, c3_rate_limit_window (some "u9") "" [] 0 1 2 3 4 5 60001 rfl
    (by omega) (by omega) (by omega) (by omega) (by omega) (by omega) (by omega)⟩

/-- Claim C8: the rate-limit window key depends only on the actor, not on the
policy: after five allowed `VOTE`-policy checks for a user within one window,
the stored entry has `count = 5`, and a `CREATE_POLL`-policy check for the
same user in the same window reads that very entry (it is allowed with
`remaining = 10 - 6 = 4` and bumps the shared counter to 6). -/
theorem c8_rate_limit_shared_key (u : Option String) (ip : String) (s0 : RateLimitStore)
    (t1 t2 t3 t4 t5 t6 : Nat)
    (h0 : storeGet s0 (rateLimitKey u ip) = none)
    (h12 : t1 ≤ t2) (h23 : t2 ≤ t3) (h34 : t3 ≤ t4) (h45 : t4 ≤ t5) (h56 : t5 ≤ t6)
    (h6w : t6 ≤ t1 + 60000) :
    let vote := RATE_LIMITS_VOTE.opt
    let p1 := checkRateLimit u ip vote t1 s0
    let p2 := checkRateLimit u ip vote t2 p1.2
    let p3 := checkRateLimit u ip vote t3 p2.2
    let p4 := checkRateLimit u ip vote t4 p3.2
    let p5 := checkRateLimit u ip vote t5 p4.2
    let p6 := checkRateLimit u ip RATE_LIMITS_CREATE_POLL.opt t6 p5.2
    (p1.1.allowed = true ∧ p2.1.allowed = true ∧ p3.1.allowed = true ∧
      p4.1.allowed = true ∧ p5.1.allowed = true) ∧
    storeGet p5.2 (rateLimitKey u ip) = some ⟨5, t1 + 60000⟩ ∧
    p6.1 = ⟨true, 4, t1 + 60000⟩ ∧
    storeGet p6.2 (rateLimitKey u ip) = some ⟨6, t1 + 60000⟩ := by
  intro vote p1 p2 p3 p4 p5 p6
  have hwin : (mergeConfig vote).windowMs = 60000 := rfl
  have hmax : (mergeConfig vote).maxRequests = 5 := rfl
  have hcmax : (mergeConfig RATE_LIMITS_CREATE_POLL.opt).maxRequests = 10 := rfl
  have e1a : p1.1 = ⟨true, 4, t1 + 60000⟩ := by
    have h := (checkRateLimit_fresh_step u ip vote t1 s0 h0 (by simp [hmax])).1
    rw [hmax, hwin] at h
    exact h
  have e1b : p1.2 = storeSet (storeSet s0 (rateLimitKey u ip) ⟨0, t1 + 60000⟩)
      (rateLimitKey u ip) ⟨1, t1 + 60000⟩ := by
    have h := (checkRateLimit_fresh_step u ip vote t1 s0 h0 (by simp [hmax])).2
    rw [hwin] at h
    exact h
  have g1 : storeGet p1.2 (rateLimitKey u ip) = some ⟨1, t1 + 60000⟩ := by
    rw [e1b]; exact storeGet_storeSet_self _ _ _
  have e2a : p2.1 = ⟨true, 3, t1 + 60000⟩ := by
    have h := (checkRateLimit_allowed_step u ip vote t2 p1.2 1 (t1 + 60000) g1
      (by omega) (by simp [hmax])).1
    rw [hmax] at h
    exact h
  have e2b : p2.2 = storeSet p1.2 (rateLimitKey u ip) ⟨1 + 1, t1 + 60000⟩ :=
    (checkRateLimit_allowed_step u ip vote t2 p1.2 1 (t1 + 60000) g1
      (by omega) (by simp [hmax])).2
  have g2 : storeGet p2.2 (rateLimitKey u ip) = some ⟨1 + 1, t1 + 60000⟩ := by
    rw [e2b]; exact storeGet_storeSet_self _ _ _
  have e3a : p3.1 = ⟨true, 2, t1 + 60000⟩ := by
    have h := (checkRateLimit_allowed_step u ip vote t3 p2.2 2 (t1 + 60000) g2
      (by omega) (by simp [hmax])).1
    rw [hmax] at h
    exact h
  have e3b : p3.2 = storeSet p2.2 (rateLimitKey u ip) ⟨2 + 1, t1 + 60000⟩ :=
    (checkRateLimit_allowed_step u ip vote t3 p2.2 2 (t1 + 60000) g2
      (by omega) (by simp [hmax])).2
  have g3 : storeGet p3.2 (rateLimitKey u ip) = some ⟨2 + 1, t1 + 60000⟩ := by
    rw [e3b]; exact storeGet_storeSet_self _ _ _
  have e4a : p4.1 = ⟨true, 1, t1 + 60000⟩ := by
    have h := (checkRateLimit_allowed_step u ip vote t4 p3.2 3 (t1 + 60000) g3
      (by omega) (by simp [hmax])).1
    rw [hmax] at h
    exact h
  have e4b : p4.2 = storeSet p3.2 (rateLimitKey u ip) ⟨3 + 1, t1 + 60000⟩ :=
    (checkRateLimit_allowed_step u ip vote t4 p3.2 3 (t1 + 60000) g3
      (by omega) (by simp [hmax])).2
  have g4 : storeGet p4.2 (rateLimitKey u ip) = some ⟨3 + 1, t1 + 60000⟩ := by
    rw [e4b]; exact storeGet_storeSet_self _ _ _
  have e5a : p5.1 = ⟨true, 0, t1 + 60000⟩ := by
    have h := (checkRateLimit_allowed_step u ip vote t5 p4.2 4 (t1 + 60000) g4
      (by omega) (by simp [hmax])).1
    rw [hmax] at h
    exact h
  have e5b : p5.2 = storeSet p4.2 (rateLimitKey u ip) ⟨4 + 1, t1 + 60000⟩ :=
    (checkRateLimit_allowed_step u ip vote t5 p4.2 4 (t1 + 60000) g4
      (by omega) (by simp [hmax])).2
  have g5 : storeGet p5.2 (rateLimitKey u ip) = some ⟨4 + 1, t1 + 60000⟩ := by
    rw [e5b]; exact storeGet_storeSet_self _ _ _
  have e6a : p6.1 = ⟨true, 4, t1 + 60000⟩ := by
    have h := (checkRateLimit_allowed_step u ip RATE_LIMITS_CREATE_POLL.opt t6 p5.2 5
      (t1 + 60000) g5 (by omega) (by simp [hcmax])).1
    rw [hcmax] at h
    exact h
  have e6b : p6.2 = storeSet p5.2 (rateLimitKey u ip) ⟨6, t1 + 60000⟩ := by
    have h := (checkRateLimit_allowed_step u ip RATE_LIMITS_CREATE_POLL.opt t6 p5.2 5
      (t1 + 60000) g5 (by omega) (by simp [hcmax])).2
    exact h
  refine ⟨⟨?_, ?_, ?_, ?_, ?_⟩, g5, e6a, ?_⟩
  · rw [e1a]
  · rw [e2a]
  · rw [e3a]
  · rw [e4a]
  · rw [e5a]
  · rw [e6b]; exact storeGet_storeSet_self _ _ _

/-- Witness for C8 at a concrete actor and concrete times. -/
theorem c8_witness :
    storeGet [] (rateLimitKey (some "u8") "") = none ∧
    (let vote := RATE_LIMITS_VOTE.opt
     let p1 := checkRateLimit (some "u8") "" vote 0 []
     let p2 := checkRateLimit (some "u8") "" vote 1 p1.2
     let p3 := checkRateLimit (some "u8") "" vote 2 p2.2
     let p4 := checkRateLimit (some "u8") "" vote 3 p3.2
     let p5 := checkRateLimit (some "u8") "" vote 4 p4.2
     let p6 := checkRateLimit (some "u8") "" RATE_LIMITS_CREATE_POLL.opt 5 p5.2
     (p1.1.allowed = true ∧ p2.1.allowed = true ∧ p3.1.allowed = true ∧
       p4.1.allowed = true ∧ p5.1.allowed = true) ∧
     storeGet p5.2 (rateLimitKey (some "u8") "") = some ⟨5, 0 + 60000⟩ ∧
     p6.1 = ⟨true, 4, 0 + 60000⟩ ∧
     storeGet p6.2 (rateLimitKey (some "u8") "") = some ⟨6, 0 + 60000⟩) :=
  ⟨rfl, c8_rate_limit_shared_key (some "u8") "" [] 0 1 2 3 4 5 rfl
    (by omega) (by omega) (by omega) (by omega) (by omega) (by omega)⟩

/-- Claim C5: deleting a poll owned by a different actor returns success
(`error = null`) while leaving the database completely unchanged: the
conditional delete filtered by `id` and `user_id` matches zero rows, the
targeted poll survives, and no other poll is affected. -/
theorem c5_delete_by_non_owner (pid a b : String) (db : DB) (poll : Poll)
    (hvalid : isValidPollId pid = true)
    (hmem : poll ∈ db.polls) (hpid : poll.id = pid) (hown : poll.userId = b)
    (hne : b ≠ a)
    (hall : ∀ p ∈ db.polls, p.id = pid → p.userId = b) :
    deletePoll pid (.user a) db none = (⟨none⟩, db) := by
  unfold deletePoll
  rw [hvalid]
  simp only [Bool.not_true, Bool.false_eq_true, if_false]
  have hfilter : db.polls.filter (fun p => !(p.id = pid && p.userId = a)) = db.polls := by
    rw [List.filter_eq_self]
    intro p hp
    by_cases hid : p.id = pid
    · have hb : p.userId = b := hall p hp hid
      simp [hid, hb, hne]
    · simp [hid]
  rw [hfilter]

/-- Witness for C5: a valid poll id, a store holding one poll owned by `b`,
and a delete request by `a`. -/
theorem c5_witness :
    deletePoll "poll1" (.user "a") ⟨[⟨"poll1", "b", "q?", ["x", "y"]⟩], []⟩ none =
      (⟨none⟩, ⟨[⟨"poll1", "b", "q?", ["x", "y"]⟩], []⟩) :=
  c5_delete_by_non_owner "poll1" "a" "b" ⟨[⟨"poll1", "b", "q?", ["x", "y"]⟩], []⟩
    ⟨"poll1", "b", "q?", ["x", "y"]⟩ (by decide) (by simp) rfl rfl (by decide)
    (by intro p hp _; simp at hp; rw [hp])

/-- Claim C6: an authenticated actor who has already voted on a poll (exactly one
existing vote for `(pollId, voterId)`, as the at-most-one invariant
guarantees) gets `DUPLICATE_VOTE` ("You have already voted on this poll") on
a second vote for any in-range option index, and no Vote row is inserted:
the database is returned unchanged, so the invariant is preserved. -/
theorem c6_duplicate_vote (pid uid : String) (i : Int) (now : Nat)
    (rl : RateLimitStore) (db : DB) (poll : Poll) (insertErr : Option String)
    (hvalid : isValidPollId pid = true)
    (hpoll : db.polls.filter (fun p => p.id = pid) = [poll])
    (hi0 : 0 ≤ i) (hilt : i < (poll.options.length : Int))
    (hallow : (checkRateLimit (some uid) "" RATE_LIMITS_VOTE.opt now rl).1.allowed = true)
    (hvoted : (db.votes.filter (fun v => v.pollId = pid && v.userId = some uid)).length = 1) :
    submitVote pid i (.user uid) now rl db insertErr =
      (⟨some "You have already voted on this poll"⟩, db,
        (checkRateLimit (some uid) "" RATE_LIMITS_VOTE.opt now rl).2) := by
  unfold submitVote
  rw [hvalid, hpoll]
  have hnotneg : ¬i < 0 := by omega
  have hidx : isValidOptionIndex i poll.options.length = true := by
    unfold isValidOptionIndex
    simp only [Bool.and_eq_true, decide_eq_true_eq]
    exact ⟨hi0, hilt⟩
  simp only [Bool.not_true, Bool.false_eq_true, if_false, if_neg hnotneg, hidx,
    authUser, Option.getD, hallow, hvoted]
  simp

/-- Witness for C6 at a concrete database with one existing vote. -/
theorem c6_witness :
    submitVote "poll1" 1 (.user "u3") 0 []
        ⟨[⟨"poll1", "u2", "q?", ["x", "y"]⟩], [⟨"poll1", some "u3", 0, 0⟩]⟩ none =
      (⟨some "You have already voted on this poll"⟩,
        ⟨[⟨"poll1", "u2", "q?", ["x", "y"]⟩], [⟨"poll1", some "u3", 0, 0⟩]⟩,
        (checkRateLimit (some "u3") "" RATE_LIMITS_VOTE.opt 0 []).2) :=
  c6_duplicate_vote "poll1" "u3" 1 0 []
    ⟨[⟨"poll1", "u2", "q?", ["x", "y"]⟩], [⟨"poll1", some "u3", 0, 0⟩]⟩
    ⟨"poll1", "u2", "q?", ["x", "y"]⟩ none (by decide) (by decide) (by decide) (by decide)
    (by decide) (by decide)

/-- Claim C9: with no authenticated actor, an existing poll, an in-range option
index and the rate limiter allowing, the vote succeeds and a Vote row with
`voterId = null` is appended, for every prior content of the votes table —
in particular however many anonymous votes for the same poll already exist;
the duplicate-vote check is skipped entirely when `user` is null. -/
theorem c9_anonymous_vote (pid : String) (i : Int) (auth : AuthState) (now : Nat)
    (rl : RateLimitStore) (db : DB) (poll : Poll)
    (hanon : authUser auth = none)
    (hvalid : isValidPollId pid = true)
    (hpoll : db.polls.filter (fun p => p.id = pid) = [poll])
    (hi0 : 0 ≤ i) (hilt : i < (poll.options.length : Int))
    (hallow : (checkRateLimit (some "") "" RATE_LIMITS_VOTE.opt now rl).1.allowed = true) :
    submitVote pid i auth now rl db none =
      (⟨none⟩, { db with votes := db.votes ++ [⟨pid, none, i, now⟩] },
        (checkRateLimit (some "") "" RATE_LIMITS_VOTE.opt now rl).2) := by
  unfold submitVote
  rw [hvalid, hpoll, hanon]
  have hnotneg : ¬i < 0 := by omega
  have hidx : isValidOptionIndex i poll.options.length = true := by
    unfold isValidOptionIndex
    simp only [Bool.and_eq_true, decide_eq_true_eq]
    exact ⟨hi0, hilt⟩
  simp only [Bool.not_true, Bool.false_eq_true, if_false, if_neg hnotneg, hidx,
    Option.getD, hallow]

/-- Witness for C9: an anonymous vote on a poll that already has two
anonymous votes succeeds and appends a third null-voter row. -/
theorem c9_witness :
    submitVote "poll1" 0 .anon 0 []
        ⟨[⟨"poll1", "u2", "q?", ["x", "y"]⟩], [⟨"poll1", none, 0, 0⟩, ⟨"poll1", none, 1, 0⟩]⟩
        none =
      (⟨none⟩,
        ⟨[⟨"poll1", "u2", "q?", ["x", "y"]⟩],
          [⟨"poll1", none, 0, 0⟩, ⟨"poll1", none, 1, 0⟩] ++ [⟨"poll1", none, 0, 0⟩]⟩,
        (checkRateLimit (some "") "" RATE_LIMITS_VOTE.opt 0 []).2) :=
  c9_anonymous_vote "poll1" 0 .anon 0 []
    ⟨[⟨"poll1", "u2", "q?", ["x", "y"]⟩], [⟨"poll1", none, 0, 0⟩, ⟨"poll1", none, 1, 0⟩]⟩
    ⟨"poll1", "u2", "q?", ["x", "y"]⟩ rfl (by decide) (by decide) (by decide) (by decide)
    (by decide)

/-- Claim C7: the claim is right and the code is wrong.  `deletePoll` and
`updatePoll` return the raw store error message to the caller
(`return { error: error.message }`), never invoking the classifying
`handleSecurityError` mapper, although that mapper exists and would map a
"permission" message to a fixed user string.  Evaluated at the failing
input: a store failure with message "permission denied for table polls" is
echoed verbatim by both operations and differs from the mapper's fixed
string. -/
theorem c7_raw_store_error_leak :
    deletePoll "poll1" (.user "u1") ⟨[], []⟩ (some "permission denied for table polls") =
      (⟨some "permission denied for table polls"⟩, ⟨[], []⟩) ∧
    updatePoll "poll1" ⟨some (.str "abc"), [.str "Red", .str "Blue"]⟩ (.user "u1") ⟨[], []⟩
        (some "permission denied for table polls") =
      .ok (⟨some "permission denied for table polls"⟩, ⟨[], []⟩) ∧
    handleSecurityError "permission denied for table polls" =
      "You do not have permission to perform this action." ∧
    "permission denied for table polls" ≠
      "You do not have permission to perform this action." :=
  ⟨rfl, rfl, by decide, by decide⟩

/-- Claim C1, counterexample: a per-option validation failure does not produce an
`INVALID_INPUT` result — the `throw` inside the option `map` is not caught,
so an exception (here the `Error` "Option 2 cannot be empty", for the
whitespace-only second option) crosses the service boundary. -/
theorem c1_counterexample :
    createPoll ⟨some (.str "abc"), [.str "Red", .str " "]⟩ (.user "u1") 0 [] ⟨[], []⟩
        "p1" none = .error (.empty 2) ∧
    OptErr.message (.empty 2) = "Option 2 cannot be empty" :=
  ⟨rfl, rfl⟩

/-- Claim C1 (amended): for every call to `createPoll` or `updatePoll` that passes
the question checks and the option-count checks and whose (truthiness
pre-filtered) options contain an entry that is not a string, longer than 200
characters, or empty after trimming, the operation raises an uncaught
exception — the thrown `Error` escapes across the service boundary instead
of being converted to an `INVALID_INPUT` result. -/
theorem c1_bad_option_throws (pid q : String) (fd : FormDataModel) (auth : AuthState)
    (now : Nat) (rl : RateLimitStore) (db : DB) (newId : String)
    (insertErr updateErr : Option String)
    (hpid : isValidPollId pid = true)
    (hq : fd.question = some (.str q)) (h1 : ¬q = "") (h2 : q.length ≤ 500)
    (h3 : 3 ≤ q.length)
    (hfew : 2 ≤ (fd.options.filter FormValue.truthy).length)
    (hmany : (fd.options.filter FormValue.truthy).length ≤ 10)
    (hbad : ∃ v ∈ fd.options.filter FormValue.truthy, isBadOpt v = true) :
    (∃ e, createPoll fd auth now rl db newId insertErr = .error e) ∧
    (∃ e, updatePoll pid fd auth db updateErr = .error e) := by
  obtain ⟨e, he⟩ := checkPollForm_error_of_bad hq h1 h2 h3 hfew hmany hbad
  exact ⟨⟨e, createPoll_error_iff.mpr he⟩, ⟨e, (updatePoll_error_iff hpid).mpr he⟩⟩

/-- Witness for C1 (amended) at a concrete form with a whitespace-only
option. -/
theorem c1_witness :
    (∃ e, createPoll ⟨some (.str "abc"), [.str "Red", .str " "]⟩ (.user "u1") 0 []
        ⟨[], []⟩ "p1" none = .error e) ∧
    (∃ e, updatePoll "p1" ⟨some (.str "abc"), [.str "Red", .str " "]⟩ (.user "u1")
        ⟨[], []⟩ none = .error e) :=
  c1_bad_option_throws "p1" "abc" ⟨some (.str "abc"), [.str "Red", .str " "]⟩
    (.user "u1") 0 [] ⟨[], []⟩ "p1" none none (by decide) rfl (by decide) (by decide)
    (by decide) (by decide) (by decide) (by decide)

/-- Claim C2, counterexample: a successful create can store a poll violating the
claimed invariant.  The raw question `"<ab"` (length 3) and raw option
`"<>"` (non-empty) pass validation, but sanitization then strips the angle
brackets: the stored question `"ab"` has length 2 < 3 and the stored second
option is the empty string, which is empty after trimming. -/
theorem c2_counterexample :
    createPoll ⟨some (.str "<ab"), [.str "yes", .str "<>"]⟩ (.user "u1") 0 [] ⟨[], []⟩
        "p1" none =
      .ok (⟨none⟩, ⟨[⟨"p1", "u1", "ab", ["yes", ""]⟩], []⟩,
        [("user:u1", ⟨1, 3600000⟩), ("user:u1", ⟨0, 3600000⟩)]) ∧
    ("ab".length < 3 ∧ jsTrim "" = "") :=
  ⟨rfl, by decide⟩

/-- Claim C2 (amended): every poll that `createPoll` successfully inserts has
its question equal to the sanitization of the submitted raw question, whose
raw length was 3-500 (so the stored question has at most 500 characters, but
may be shorter than 3 after sanitization); an options array of 2 to 10
entries; and every stored option equal to the sanitization of a submitted
raw option of at most 200 characters that was non-empty after trimming (so
stored options have at most 200 characters, but may be empty after
trimming). -/
theorem c2_create_invariant (fd : FormDataModel) (auth : AuthState) (now : Nat)
    (rl : RateLimitStore) (db : DB) (newId : String) (insertErr : Option String)
    (db2 : DB) (rl2 : RateLimitStore)
    (h : createPoll fd auth now rl db newId insertErr = .ok (⟨none⟩, db2, rl2)) :
    ∃ (p : Poll) (rawq : String), db2.polls = db.polls ++ [p] ∧
      fd.question = some (.str rawq) ∧ 3 ≤ rawq.length ∧ rawq.length ≤ 500 ∧
      p.question = sanitizeInput rawq ∧ p.question.length ≤ 500 ∧
      2 ≤ p.options.length ∧ p.options.length ≤ 10 ∧
      ∀ o ∈ p.options, ∃ raw : String, FormValue.str raw ∈ fd.options ∧
        raw.length ≤ 200 ∧ (jsTrim raw).length ≠ 0 ∧ o = sanitizeInput raw ∧
        o.length ≤ 200 := by
  obtain ⟨uid, q, opts, -, hcheck, hdb⟩ := createPoll_ok_insert h
  obtain ⟨rawq, hqq, hne, h500, h3, hsan, hopts, h2le, h10⟩ := checkPollForm_accept hcheck
  obtain ⟨hlen, hfacts⟩ := sanitizeOptionsFrom_ok 1 _ opts hopts
  refine ⟨⟨newId, uid, q, opts⟩, rawq, by rw [hdb], hqq, h3, h500, hsan, ?_, h2le, ?_, ?_⟩
  · show q.length ≤ 500
    rw [hsan]; exact Nat.le_trans (sanitizeInput_length_le rawq) h500
  · show opts.length ≤ 10
    rw [hlen]; exact h10
  · intro o ho
    obtain ⟨raw, hmemf, h200, hne0, hs⟩ := hfacts o ho
    refine ⟨raw, (List.mem_filter.mp hmemf).1, h200, hne0, hs, ?_⟩
    rw [hs]; exact Nat.le_trans (sanitizeInput_length_le raw) h200

/-- Witness for C2 (amended) at a concrete successful create. -/
theorem c2_witness :
    ∃ (p : Poll) (rawq : String),
      (⟨[⟨"p1", "u1", "favorite color?", ["Red", "Blue"]⟩], []⟩ : DB).polls =
        (⟨[], []⟩ : DB).polls ++ [p] ∧
      some (FormValue.str "favorite color?") = some (.str rawq) ∧
      3 ≤ rawq.length ∧ rawq.length ≤ 500 ∧
      p.question = sanitizeInput rawq ∧ p.question.length ≤ 500 ∧
      2 ≤ p.options.length ∧ p.options.length ≤ 10 ∧
      ∀ o ∈ p.options, ∃ raw : String,
        FormValue.str raw ∈ [FormValue.str "Red", FormValue.str "Blue"] ∧
        raw.length ≤ 200 ∧ (jsTrim raw).length ≠ 0 ∧ o = sanitizeInput raw ∧
        o.length ≤ 200 :=
  c2_create_invariant ⟨some (.str "favorite color?"), [.str "Red", .str "Blue"]⟩
    (.user "u1") 0 [] ⟨[], []⟩ "p1" none
    ⟨[⟨"p1", "u1", "favorite color?", ["Red", "Blue"]⟩], []⟩
    [("user:u1", ⟨1, 3600000⟩), ("user:u1", ⟨0, 3600000⟩)] rfl

/-- Claim C10: empty-string option entries are dropped by the `filter(Boolean)`
pre-filter before any validation, in both `createPoll` and `updatePoll`:
(1)-(2) pre-filtering the submitted options does not change either
operation's outcome; (3)-(4) a "cannot be empty" exception can only
originate from a whitespace-only non-empty string entry, never from an
empty-string entry; (5)-(6) when fewer than two entries survive the filter
(and the question is valid), the operation returns the too-few-options
`INVALID_INPUT` result "Please provide at least two options.". -/
theorem c10_empty_options_prefiltered :
    (∀ (fd : FormDataModel) (auth : AuthState) (now : Nat) (rl : RateLimitStore)
        (db : DB) (newId : String) (insertErr : Option String),
      createPoll ⟨fd.question, fd.options.filter FormValue.truthy⟩ auth now rl db newId
          insertErr =
        createPoll fd auth now rl db newId insertErr) ∧
    (∀ (pid : String) (fd : FormDataModel) (auth : AuthState) (db : DB)
        (updateErr : Option String),
      updatePoll pid ⟨fd.question, fd.options.filter FormValue.truthy⟩ auth db
          updateErr =
        updatePoll pid fd auth db updateErr) ∧
    (∀ (fd : FormDataModel) (auth : AuthState) (now : Nat) (rl : RateLimitStore)
        (db : DB) (newId : String) (insertErr : Option String) (k : Nat),
      createPoll fd auth now rl db newId insertErr = .error (.empty k) →
      ∃ o : String, FormValue.str o ∈ fd.options ∧ ¬o = "" ∧ (jsTrim o).length = 0) ∧
    (∀ (pid : String) (fd : FormDataModel) (auth : AuthState) (db : DB)
        (updateErr : Option String) (k : Nat),
      updatePoll pid fd auth db updateErr = .error (.empty k) →
      ∃ o : String, FormValue.str o ∈ fd.options ∧ ¬o = "" ∧ (jsTrim o).length = 0) ∧
    (∀ (fd : FormDataModel) (auth : AuthState) (now : Nat) (rl : RateLimitStore)
        (db : DB) (newId : String) (insertErr : Option String) (q : String),
      fd.question = some (.str q) → ¬q = "" → q.length ≤ 500 → 3 ≤ q.length →
      (fd.options.filter FormValue.truthy).length < 2 →
      createPoll fd auth now rl db newId insertErr =
        .ok (⟨some "Please provide at least two options."⟩, db, rl)) ∧
    (∀ (pid : String) (fd : FormDataModel) (auth : AuthState) (db : DB)
        (updateErr : Option String) (q : String),
      isValidPollId pid = true →
      fd.question = some (.str q) → ¬q = "" → q.length ≤ 500 → 3 ≤ q.length →
      (fd.options.filter FormValue.truthy).length < 2 →
      updatePoll pid fd auth db updateErr =
        .ok (⟨some "Please provide at least two options."⟩, db)) := by
  have hemp : ∀ (fd : FormDataModel) (k : Nat),
      sanitizeOptionsFrom 1 (fd.options.filter FormValue.truthy) = .error (.empty k) →
      ∃ o : String, FormValue.str o ∈ fd.options ∧ ¬o = "" ∧ (jsTrim o).length = 0 := by
    intro fd k hopt
    obtain ⟨o, ho, hjt⟩ := sanitizeOptionsFrom_error_empty 1 k _ hopt
    have hmem := List.mem_filter.mp ho
    refine ⟨o, hmem.1, ?_, hjt⟩
    have ht := hmem.2
    simp only [FormValue.truthy, Bool.not_eq_true'] at ht
    simpa using ht
  refine ⟨?_, ?_, ?_, ?_, ?_, ?_⟩
  · intro fd auth now rl db newId insertErr
    unfold createPoll
    rw [checkPollForm_filter_invariant fd]
  · intro pid fd auth db updateErr
    unfold updatePoll
    rw [checkPollForm_filter_invariant fd]
  · intro fd auth now rl db newId insertErr k h
    exact hemp fd k (checkPollForm_error (createPoll_error_iff.mp h))
  · intro pid fd auth db updateErr k h
    exact hemp fd k (checkPollForm_error (updatePoll_error_to h))
  · intro fd auth now rl db newId insertErr q hq h1 h2 h3 hfew
    unfold createPoll
    rw [checkPollForm_too_few hq h1 h2 h3 hfew]
  · intro pid fd auth db updateErr q hpid hq h1 h2 h3 hfew
    unfold updatePoll
    rw [hpid]
    simp only [Bool.not_true, Bool.false_eq_true, if_false]
    rw [checkPollForm_too_few hq h1 h2 h3 hfew]

/-- Witness for C10: each conjunct at a concrete form. -/
theorem c10_witness :
    (createPoll ⟨some (.str "abc"), [.str "a", .str "b"]⟩ (.user "u1") 0 [] ⟨[], []⟩
        "p1" none =
      createPoll ⟨some (.str "abc"), [.str "", .str "a", .str "b"]⟩ (.user "u1") 0 []
        ⟨[], []⟩ "p1" none) ∧
    (updatePoll "p1" ⟨some (.str "abc"), [.str "a", .str "b"]⟩ (.user "u1") ⟨[], []⟩
        none =
      updatePoll "p1" ⟨some (.str "abc"), [.str "", .str "a", .str "b"]⟩ (.user "u1")
        ⟨[], []⟩ none) ∧
    (∃ o : String, FormValue.str o ∈ [FormValue.str "a", FormValue.str " "] ∧
      ¬o = "" ∧ (jsTrim o).length = 0) ∧
    (∃ o : String, FormValue.str o ∈ [FormValue.str "a", FormValue.str " "] ∧
      ¬o = "" ∧ (jsTrim o).length = 0) ∧
    (createPoll ⟨some (.str "abc"), [.str "", .str "a"]⟩ (.user "u1") 0 [] ⟨[], []⟩
        "p1" none =
      .ok (⟨some "Please provide at least two options."⟩, ⟨[], []⟩, [])) ∧
    (updatePoll "p1" ⟨some (.str "abc"), [.str "", .str "a"]⟩ (.user "u1") ⟨[], []⟩
        none =
      .ok (⟨some "Please provide at least two options."⟩, ⟨[], []⟩)) :=
  ⟨c10_empty_options_prefiltered.1 ⟨some (.str "abc"), [.str "", .str "a", .str "b"]⟩
      (.user "u1") 0 [] ⟨[], []⟩ "p1" none,
   c10_empty_options_prefiltered.2.1 "p1" ⟨some (.str "abc"), [.str "", .str "a", .str "b"]⟩
      (.user "u1") ⟨[], []⟩ none,
   c10_empty_options_prefiltered.2.2.1 ⟨some (.str "abc"), [.str "a", .str " "]⟩
      (.user "u1") 0 [] ⟨[], []⟩ "p1" none 2 rfl,
   c10_empty_options_prefiltered.2.2.2.1 "p1" ⟨some (.str "abc"), [.str "a", .str " "]⟩
      (.user "u1") ⟨[], []⟩ none 2 rfl,
   c10_empty_options_prefiltered.2.2.2.2.1 ⟨some (.str "abc"), [.str "", .str "a"]⟩
      (.user "u1") 0 [] ⟨[], []⟩ "p1" none "abc" rfl (by decide) (by decide) (by decide)
      (by decide),
   c10_empty_options_prefiltered.2.2.2.2.2 "p1" ⟨some (.str "abc"), [.str "", .str "a"]⟩
      (.user "u1") ⟨[], []⟩ none "abc" (by decide) rfl (by decide) (by decide) (by decide)
      (by decide)⟩

end Polly
